import Mathlib

/-!
Verification of the conditional fixture generator of
`sktime/utils/_testing/_conditional_fixtures.py`.

The Python module is embedded shallowly: Python runtime values that can occur
in this component are modelled by the inductive type `PyVal`, generator
functions become Lean functions returning `Except Unit PyVal` (an `error`
models a raised exception), and the eager consumption of the lazy pipelines
(`starmap`/`tee`/generator functions) is modelled by total functions returning
`Except Unit _`, where `error` models an exception escaping to the consumer.
-/

/-- Python runtime values occurring in the conditional fixture generator:
integers, strings, tuples, lists, and instances of `FixtureGenerationError`
(which carries the failing fixture variable's name). -/
inductive PyVal where
  | int (n : Int)
  | str (s : String)
  | tuple (xs : List PyVal)
  | list (xs : List PyVal)
  | genError (fixture_name : String)
  deriving Inhabited, Repr

/-- Message built by `FixtureGenerationError.__init__`: the constructor appends
a trailing blank to the fixture name before interpolating it into the message
string. -/
def fixtureGenerationErrorMsg (fixture_name : String) : String :=
  "fixture " ++ (fixture_name ++ " ") ++ "failed to generate"

mutual

/-- Python `repr` on the values of `PyVal` (used by `str` on containers):
integers print in decimal, strings print quoted, tuples and lists print their
elements separated by a comma and blank, a singleton tuple prints with a
trailing comma, and an exception instance prints as constructor call. -/
def pyRepr : PyVal → String
  | PyVal.int n => toString n
  | PyVal.str s => "\x27" ++ s ++ "\x27"
  | PyVal.tuple [x] => "(" ++ pyRepr x ++ ",)"
  | PyVal.tuple xs => "(" ++ pyReprJoin xs ++ ")"
  | PyVal.list xs => "[" ++ pyReprJoin xs ++ "]"
  | PyVal.genError name =>
    "FixtureGenerationError(\x27" ++ fixtureGenerationErrorMsg name ++ "\x27)"

/-- Helper of `pyRepr`: comma-and-blank separated representations of a list
of values. -/
def pyReprJoin : List PyVal → String
  | [] => ""
  | [x] => pyRepr x
  | x :: xs => pyRepr x ++ ", " ++ pyReprJoin xs

end

/-- Python builtin `str` on the values of `PyVal`: identity on strings,
decimal rendering of integers, the stored message for an exception instance,
and `repr`-style rendering for containers. -/
def pyStr : PyVal → String
  | PyVal.int n => toString n
  | PyVal.str s => s
  | PyVal.genError name => fixtureGenerationErrorMsg name
  | v => pyRepr v

/-- Python `iter` on the values of `PyVal`: tuples and lists yield their
elements, a string yields its one-character substrings, and integers and
exception instances are not iterable (`none` models the `TypeError`). -/
def pyIter : PyVal → Option (List PyVal)
  | PyVal.tuple xs => some xs
  | PyVal.list xs => some xs
  | PyVal.str s => some (s.toList.map fun c => PyVal.str (String.singleton c))
  | _ => none

/-- A conditional fixture generator function: it receives the test name and
the keyword arguments (already resolved fixture variables, as name-value
pairs) and either returns a Python value or raises. -/
abbrev Generator : Type := String → List (String × PyVal) → Except Unit PyVal

/-- The `generator_dict` argument: a mapping from fixture variable names to
generator functions, modelled as an association list. -/
abbrev GenDict : Type := List (String × Generator)

/-- A partial product branch: the tuple of already chosen fixture values
paired with the list of their display names (Python builds the names as a
list of strings, but nothing in the code forces the entries to be strings,
so they are kept as `PyVal`). -/
abbrev Branch : Type := List PyVal × List PyVal

/-- Python `isinstance(x, str)` on `PyVal`. -/
def isinstance_str : PyVal → Bool
  | PyVal.str _ => true
  | _ => false

/-- Behaviour of `numpy.all` applied to a generator expression, as done in
`_check_list_of_str`: numpy wraps the generator object itself in a
0-dimensional object array instead of consuming it, and the truth value of a
generator object is `True`, so the call returns `True` regardless of the
predicate and of the list elements. -/
def np_all_genexpr (_p : PyVal → Bool) (_xs : List PyVal) : Bool :=
  true

/-- Embedding of `_check_list_of_str`. The source tests
`not isinstance(obj, list) or not np.all(isinstance(x, str) for x in obj)`
and raises `TypeError` when the test holds. Because `np_all_genexpr` is
constantly `true` (see its docstring), only the `isinstance(obj, list)` part
can fail, so any list passes, even one with non-string elements. -/
def _check_list_of_str (obj : PyVal) (_name : String) : Except Unit (List PyVal) :=
  match obj with
  | PyVal.list xs =>
    if np_all_genexpr isinstance_str xs then Except.ok xs else Except.error ()
  | _ => Except.error ()

/-- Embedding of line 99 of the source:
the list comprehension keeping the `fixture_vars` entries that are keys of
`generator_dict`. Python's `in` compares with `==`, and in `PyVal` only a
`str` value can equal a string dictionary key, so non-string entries are
dropped here. -/
def filtered_vars (generator_dict : GenDict) (xs : List PyVal) : List String :=
  xs.filterMap fun v =>
    match v with
    | PyVal.str s =>
      match List.lookup s generator_dict with
      | some _ => some s
      | none => none
    | _ => none

/-- Embedding of lines 104-108 of the source: the loop collecting, in
`fixture_sequence` order, the sequence entries that occur in the filtered
`fixture_vars`. Entries of the sequence that are not filtered variables are
skipped, and (as in `filtered_vars`) a non-string entry equals no string. -/
def ordered_vars (fv : List String) (seqL : List PyVal) : List String :=
  seqL.filterMap fun v =>
    match v with
    | PyVal.str s => if s ∈ fv then some s else none
    | _ => none

/-- The resolution-order prefix of `create_conditional_fixtures_and_names`
(source lines 98-108): validate `fixture_vars`, filter it to registered
variables, and re-order by `fixture_sequence` when one is given (validating
it as well). -/
def resolution_order (generator_dict : GenDict) (fixture_vars : PyVal)
    (fixture_sequence : Option PyVal) : Except Unit (List String) :=
  match _check_list_of_str fixture_vars "fixture_vars" with
  | Except.error e => Except.error e
  | Except.ok xs =>
    match fixture_sequence with
    | none => Except.ok (filtered_vars generator_dict xs)
    | some seq =>
      match _check_list_of_str seq "fixture_sequence" with
      | Except.error e => Except.error e
      | Except.ok sL => Except.ok (ordered_vars (filtered_vars generator_dict xs) sL)

/-- Classification of a generator's return value inside the `try` block of
`get_fixtures`: a tuple of length exactly 2 is the (fixtures, names) pair
form, a list is a plain candidate list, and anything else is handed to
`starmap`, whose construction calls `iter` on it (a `TypeError` there is
still inside the `try`, hence `none`). -/
inductive GenParsed where
  | pairForm (vals names : PyVal)
  | listForm (xs : List PyVal)
  | starForm (elems : List PyVal)

/-- Dispatch on the shape of the generator result, mirroring the
`isinstance` tests of `get_fixtures` in order. -/
def classify_res (res : PyVal) : Option GenParsed :=
  match res with
  | PyVal.tuple [a, b] => some (GenParsed.pairForm a b)
  | PyVal.list xs => some (GenParsed.listForm xs)
  | other => (pyIter other).map GenParsed.starForm

/-- Everything of `get_fixtures` that happens inside its `try` block: look up
the generator (a `KeyError` would be caught too), call it, and classify the
result. `none` models any exception caught by the `except` clause. -/
def run_generator (generator_dict : GenDict) (test_name : String)
    (fixture_var : String) (kwargs : List (String × PyVal)) : Option GenParsed :=
  match List.lookup fixture_var generator_dict with
  | none => none
  | some gen =>
    match gen test_name kwargs with
    | Except.error _ => none
    | Except.ok res => classify_res res

/-- Unpacking of one element of a `starmap` input by a two-argument lambda:
the element must be an iterable of exactly two items, otherwise a
`TypeError` is raised lazily, outside the `try` block. -/
def unpack_pair (v : PyVal) : Except Unit (PyVal × PyVal) :=
  match pyIter v with
  | some [x, y] => Except.ok (x, y)
  | _ => Except.error ()

/-- Sequential effectful map over a list, as a Python `for` loop that stops
at the first raised exception. -/
def mapE {α β : Type} (f : α → Except Unit β) : List α → Except Unit (List β)
  | [] => Except.ok []
  | a :: as =>
    match f a with
    | Except.error e => Except.error e
    | Except.ok b =>
      match mapE f as with
      | Except.error e => Except.error e
      | Except.ok bs => Except.ok (b :: bs)

/-- Sequential map over a list in the `Option` monad (used only to state
index alignment of produced names). -/
def mapO {α β : Type} (f : α → Option β) : List α → Option (List β)
  | [] => some []
  | a :: as =>
    match f a with
    | none => none
    | some b =>
      match mapO f as with
      | none => none
      | some bs => some (b :: bs)

/-- Coercion from `Option` to `Except Unit`, `none` becoming an error. -/
def except_of_option {α : Type} : Option α → Except Unit α
  | some a => Except.ok a
  | none => Except.error ()

/-- Embedding of `get_fixtures`: returns the candidate values and their
display names for one variable, conditional on the already resolved values
in `kwargs`. Any exception inside the `try` block is converted into the
one-element error sentinel; exceptions arising from lazily consuming the
result (iterating the components of the pair form, or unpacking the elements
handed to `starmap`) happen outside the `try` block and escape, which the
`Except.error` result models. In the list form the names are synthesized
with `str`; in the other forms the supplied name values are kept as they
are. -/
def get_fixtures (generator_dict : GenDict) (test_name : String)
    (fixture_var : String) (kwargs : List (String × PyVal)) :
    Except Unit (List PyVal × List PyVal) :=
  match run_generator generator_dict test_name fixture_var kwargs with
  | none =>
    Except.ok ([PyVal.genError fixture_var], [PyVal.str ("Error:" ++ fixture_var)])
  | some (GenParsed.pairForm a b) =>
    match pyIter a, pyIter b with
    | some va, some nb => Except.ok (va, nb)
    | _, _ => Except.error ()
  | some (GenParsed.listForm xs) =>
    Except.ok (xs, xs.map fun x => PyVal.str (pyStr x))
  | some (GenParsed.starForm es) =>
    match mapE unpack_pair es with
    | Except.error e => Except.error e
    | Except.ok ps => Except.ok (ps.map Prod.fst, ps.map Prod.snd)

/-- The keyword arguments passed to a generator for one branch: the names of
the previously resolved variables zipped with the branch's values (the
source special-cases the empty case to `dict()`, which coincides with the
empty zip). -/
def branch_kwargs (old_fixture_vars : List String) (fixture : List PyVal) :
    List (String × PyVal) :=
  match old_fixture_vars with
  | [] => []
  | _ => old_fixture_vars.zip fixture

/-- The body of the outer loop of `one_fixture_prod` for one branch: generate
the candidates of `fixture_var` conditionally on the branch's values, zip
candidate values with candidate names (truncating at the shorter one, as
`zip` does) and append each pair to the branch. `deepcopy` is the identity
on the immutable values of `PyVal`. -/
def extend_branch (generator_dict : GenDict) (test_name : String)
    (old_fixture_vars : List String) (fixture_var : String) (b : Branch) :
    Except Unit (List Branch) :=
  match get_fixtures generator_dict test_name fixture_var
      (branch_kwargs old_fixture_vars b.1) with
  | Except.error e => Except.error e
  | Except.ok nf =>
    Except.ok ((nf.1.zip nf.2).map fun p => (b.1 ++ [p.1], b.2 ++ [p.2]))

/-- Embedding of `one_fixture_prod` (fully consumed): every branch is
extended by each candidate of `fixture_var`, and the extensions of all
branches are concatenated in order. -/
def one_fixture_prod (generator_dict : GenDict) (test_name : String)
    (fixture_prod : List Branch) (old_fixture_vars : List String)
    (fixture_var : String) : Except Unit (List Branch) :=
  match mapE (extend_branch generator_dict test_name old_fixture_vars fixture_var)
    fixture_prod with
  | Except.error e => Except.error e
  | Except.ok parts => Except.ok parts.flatten

/-- The main loop of `create_conditional_fixtures_and_names` (source lines
173-178): fold `one_fixture_prod` over the resolution order, where the
already processed variables (`fixture_vars[0:i]` in the source) are
accumulated in `old`. -/
def expand_vars (generator_dict : GenDict) (test_name : String) :
    List String → List String → List Branch → Except Unit (List Branch)
  | _, [], st => Except.ok st
  | old, v :: rest, st =>
    match one_fixture_prod generator_dict test_name st old v with
    | Except.error e => Except.error e
    | Except.ok st₁ => expand_vars generator_dict test_name (old ++ [v]) rest st₁

/-- Embedding of `_remove_single`: a singleton tuple is unwrapped to its
element, anything else is returned unchanged (as the tuple it is). -/
def _remove_single (x : List PyVal) : PyVal :=
  match x with
  | [y] => y
  | xs => PyVal.tuple xs

/-- Embedding of `make_fixture_prod`: drops the name component and unwraps
singleton value tuples. -/
def make_fixture_prod (fixture_prod : List PyVal) (_fixture_name : List PyVal) :
    PyVal :=
  _remove_single fixture_prod

/-- Extraction of a list of Python strings: `some` exactly when all entries
are `str` values (`str.join` raises a `TypeError` otherwise). -/
def str_list : List PyVal → Option (List String)
  | [] => some []
  | PyVal.str s :: rest =>
    match str_list rest with
    | none => none
    | some ss => some (s :: ss)
  | _ => none

/-- Python comparison `x != ""` on a `PyVal`: false exactly for the empty
string (a non-string value never equals a string). -/
def ne_empty_str : PyVal → Bool
  | PyVal.str s => !(s == "")
  | _ => true

/-- Embedding of `make_fixture_name`: drop the empty-string name segments and
join the rest with a dash; `none` models the `TypeError` that `join` raises
when a kept name segment is not a string. -/
def make_fixture_name (_fixture_prod : List PyVal) (fixture_name : List PyVal) :
    Option String :=
  match str_list (fixture_name.filter ne_empty_str) with
  | none => none
  | some ss => some (String.intercalate "-" ss)

/-- Embedding of `create_conditional_fixtures_and_names`, with the lazily
returned `fixture_prod` and `fixture_names` iterators fully consumed into
lists. The three components of the result are the comma-joined resolution
order, the fixture values (singletons unwrapped) and the dash-joined fixture
names. -/
def create_conditional_fixtures_and_names (test_name : String)
    (fixture_vars : PyVal) (generator_dict : GenDict)
    (fixture_sequence : Option PyVal) :
    Except Unit (String × List PyVal × List String) :=
  match resolution_order generator_dict fixture_vars fixture_sequence with
  | Except.error e => Except.error e
  | Except.ok fvars =>
    match expand_vars generator_dict test_name [] fvars [([], [])] with
    | Except.error e => Except.error e
    | Except.ok prods =>
      match mapE (fun b => except_of_option (make_fixture_name b.1 b.2)) prods with
      | Except.error e => Except.error e
      | Except.ok names =>
        Except.ok (String.intercalate "," fvars,
          prods.map (fun b => make_fixture_prod b.1 b.2),
          names)

/-- A fixture variable is benign when its generator is registered and, for
every keyword assignment, either returns a plain candidate list or raises. -/
def benign (generator_dict : GenDict) (test_name : String) (v : String) : Prop :=
  ∃ g, List.lookup v generator_dict = some g ∧
    ∀ kwargs, (∃ xs, g test_name kwargs = Except.ok (PyVal.list xs)) ∨
      g test_name kwargs = Except.error ()

/-- All entries of a name list are Python strings. -/
def all_str_names (l : List PyVal) : Prop :=
  ∀ x ∈ l, ∃ s, x = PyVal.str s

/-- Whether an `Except` computation succeeded. -/
def is_ok {α : Type} : Except Unit α → Bool
  | Except.ok _ => true
  | Except.error _ => false

/-- String extraction from a `PyVal` (used to state the amended resolution
order of claim C2). -/
def str_of : PyVal → Option String
  | PyVal.str s => some s
  | _ => none

/-- Generator dictionary registering only variable `a` (claim C1). -/
def gdC1 : GenDict :=
  [("a", fun _ _ => Except.ok (PyVal.list [PyVal.int 1]))]

/-- Generator dictionary registering variables `a` and `b` (claim C2). -/
def gdC2 : GenDict :=
  [("a", fun _ _ => Except.ok (PyVal.list [PyVal.int 1])),
   ("b", fun _ _ => Except.ok (PyVal.list [PyVal.int 2]))]

/-- Generator dictionary with fixed-size candidate lists: one candidate for
`a` and two for `b` (witness of claim C3). -/
def gdC3 : GenDict :=
  [("a", fun _ _ => Except.ok (PyVal.list [PyVal.int 1])),
   ("b", fun _ _ => Except.ok (PyVal.list [PyVal.int 2, PyVal.int 3]))]

/-- Candidate-list sizes of `gdC3` (witness of claim C3). -/
def nC3 : String → Nat :=
  fun v => if v = "a" then 1 else 2

/-- Generator dictionary whose `x` generator always raises and whose `y`
generator returns one candidate (witness of claim C4). -/
def gdC4 : GenDict :=
  [("x", fun _ _ => Except.error ()),
   ("y", fun _ _ => Except.ok (PyVal.list [PyVal.int 1]))]

/-- Generator dictionary with two candidates for `a` and one for `b`
(witness of claim C5). -/
def gdC5 : GenDict :=
  [("a", fun _ _ => Except.ok (PyVal.list [PyVal.int 1, PyVal.int 2])),
   ("b", fun _ _ => Except.ok (PyVal.list [PyVal.int 3]))]

/-- Generator dictionary for the alignment witness of claim C6. -/
def gdC6 : GenDict :=
  [("a", fun _ _ => Except.ok (PyVal.list [PyVal.int 1, PyVal.int 2]))]

/-- Generator dictionary registering only `a` (witness of claim C7). -/
def gdC7 : GenDict :=
  [("a", fun _ _ => Except.ok (PyVal.list [PyVal.int 1]))]

/-- Generator dictionary of the worked example of claim C8: the `number`
generator returns the plain list of 1, 2, 3. -/
def gdC8 : GenDict :=
  [("number", fun _ _ =>
    Except.ok (PyVal.list [PyVal.int 1, PyVal.int 2, PyVal.int 3]))]

/-- Generator dictionary exercising the three result shapes of
`get_fixtures` (witness of claim C10): `p` returns a pair (values, names),
`l` returns a plain list, and `s` returns a 3-tuple of (value, name) pairs. -/
def gdC10 : GenDict :=
  [("p", fun _ _ => Except.ok (PyVal.tuple
      [PyVal.list [PyVal.int 7], PyVal.list [PyVal.str "seven"]])),
   ("l", fun _ _ => Except.ok (PyVal.list [PyVal.int 1, PyVal.int 2])),
   ("s", fun _ _ => Except.ok (PyVal.tuple
      [PyVal.tuple [PyVal.int 1, PyVal.str "one"],
       PyVal.tuple [PyVal.int 2, PyVal.str "two"],
       PyVal.tuple [PyVal.int 3, PyVal.str "three"]]))]

/-- C8: with a single variable `number` whose generator returns the list of
1, 2, 3, the call returns parameter string `number`, the bare values 1, 2, 3
and the names synthesized by `str`. -/
theorem C8_single_number_example :
    create_conditional_fixtures_and_names "test" (PyVal.list [PyVal.str "number"])
      gdC8 none =
    Except.ok ("number", [PyVal.int 1, PyVal.int 2, PyVal.int 3],
      ["1", "2", "3"]) := rfl

/-- Generator dictionary for the empty-resolution witness of claim C9. -/
def gdC9 : GenDict := []

/-- An effectful map returning `ok` determines length-preserving output. -/
theorem mapE_ok_length {α β : Type} (f : α → Except Unit β) :
    ∀ (l : List α) (l₂ : List β), mapE f l = Except.ok l₂ → l₂.length = l.length := by
  intro l
  induction l with
  | nil =>
    intro l₂ h
    simp only [mapE, Except.ok.injEq] at h
    subst h
    rfl
  | cons a as ih =>
    intro l₂ h
    simp only [mapE] at h
    split at h
    · exact absurd h (by simp)
    · split at h
      · exact absurd h (by simp)
      · simp only [Except.ok.injEq] at h
        subst h
        simp only [List.length_cons]
        rename_i b hb bs hbs
        rw [ih bs hbs]

/-- Every element of the output of a successful effectful map comes from an
element of the input. -/
theorem mapE_mem {α β : Type} (f : α → Except Unit β) :
    ∀ (l : List α) (l₂ : List β), mapE f l = Except.ok l₂ →
      ∀ b ∈ l₂, ∃ a ∈ l, f a = Except.ok b := by
  intro l
  induction l with
  | nil =>
    intro l₂ h
    simp only [mapE, Except.ok.injEq] at h
    subst h
    intro b hb
    exact absurd hb (by simp)
  | cons a as ih =>
    intro l₂ h
    simp only [mapE] at h
    split at h
    · exact absurd h (by simp)
    · split at h
      · exact absurd h (by simp)
      · simp only [Except.ok.injEq] at h
        subst h
        rename_i x₁ b hb x₂ bs hbs
        intro c hc
        rcases List.mem_cons.mp hc with hcb | hcs
        · exact ⟨a, by simp, hcb ▸ hb⟩
        · rcases ih bs hbs c hcs with ⟨a₂, ha₂, hfa₂⟩
          exact ⟨a₂, List.mem_cons_of_mem a ha₂, hfa₂⟩

/-- If the function succeeds on every element, the effectful map succeeds. -/
theorem mapE_ok_of_forall {α β : Type} (f : α → Except Unit β) :
    ∀ (l : List α), (∀ a ∈ l, ∃ b, f a = Except.ok b) →
      ∃ l₂, mapE f l = Except.ok l₂ := by
  intro l
  induction l with
  | nil => intro _; exact ⟨[], rfl⟩
  | cons a as ih =>
    intro h
    rcases h a (by simp) with ⟨b, hb⟩
    rcases ih (fun x hx => h x (List.mem_cons_of_mem a hx)) with ⟨bs, hbs⟩
    refine ⟨b :: bs, ?_⟩
    simp only [mapE, hb, hbs]

/-- A successful effectful map of an `Option`-valued function coincides with
the `Option` map of that function. -/
theorem mapE_option {α β : Type} (f : α → Option β) :
    ∀ (l : List α) (l₂ : List β),
      mapE (fun a => except_of_option (f a)) l = Except.ok l₂ →
      mapO f l = some l₂ := by
  intro l
  induction l with
  | nil =>
    intro l₂ h
    simp only [mapE, Except.ok.injEq] at h
    subst h
    rfl
  | cons a as ih =>
    intro l₂ h
    simp only [mapE] at h
    split at h
    · exact absurd h (by simp)
    · split at h
      · exact absurd h (by simp)
      · simp only [Except.ok.injEq] at h
        subst h
        rename_i x₁ b hb x₂ bs hbs
        cases hfa : f a with
        | none => rw [hfa] at hb; exact absurd hb (by simp [except_of_option])
        | some c =>
          rw [hfa] at hb
          simp only [except_of_option, Except.ok.injEq] at hb
          subst hb
          simp only [mapO, hfa, ih bs hbs]

/-- Decomposition of a successful call of the top-level function into its
resolution order, its fully expanded branch list, and the projections that
produce the three returned components. -/
theorem create_ok_decomp (test_name : String) (fixture_vars : PyVal)
    (generator_dict : GenDict) (fixture_sequence : Option PyVal)
    (ps : String) (vals : List PyVal) (names : List String)
    (h : create_conditional_fixtures_and_names test_name fixture_vars
      generator_dict fixture_sequence = Except.ok (ps, vals, names)) :
    ∃ fvars prods,
      resolution_order generator_dict fixture_vars fixture_sequence =
        Except.ok fvars ∧
      expand_vars generator_dict test_name [] fvars [([], [])] =
        Except.ok prods ∧
      ps = String.intercalate "," fvars ∧
      vals = prods.map (fun b => make_fixture_prod b.1 b.2) ∧
      mapE (fun b => except_of_option (make_fixture_name b.1 b.2)) prods =
        Except.ok names := by
  unfold create_conditional_fixtures_and_names at h
  split at h
  · exact absurd h (by simp)
  · split at h
    · exact absurd h (by simp)
    · split at h
      · exact absurd h (by simp)
      · rename_i x₁ fvars hfv x₂ prods hexp x₃ names₂ hnames
        simp only [Except.ok.injEq, Prod.mk.injEq] at h
        exact ⟨fvars, prods, hfv, hexp, h.1.symm, h.2.1.symm, h.2.2 ▸ hnames⟩

/-- Behaviour of `get_fixtures` on a registered generator returning a plain
candidate list: the candidates are returned as they are and the names are
synthesized with `str`. -/
theorem get_fixtures_list (generator_dict : GenDict) (test_name v : String)
    (kwargs : List (String × PyVal)) (g : Generator) (xs : List PyVal)
    (hg : List.lookup v generator_dict = some g)
    (hres : g test_name kwargs = Except.ok (PyVal.list xs)) :
    get_fixtures generator_dict test_name v kwargs =
      Except.ok (xs, xs.map fun x => PyVal.str (pyStr x)) := by
  unfold get_fixtures run_generator
  simp only [hg, hres]
  rfl

/-- Behaviour of `get_fixtures` when the registered generator raises: the
exception is caught and the candidate set is the one-element error sentinel
named after the variable. -/
theorem get_fixtures_raise (generator_dict : GenDict) (test_name v : String)
    (kwargs : List (String × PyVal)) (g : Generator)
    (hg : List.lookup v generator_dict = some g)
    (hres : g test_name kwargs = Except.error ()) :
    get_fixtures generator_dict test_name v kwargs =
      Except.ok ([PyVal.genError v], [PyVal.str ("Error:" ++ v)]) := by
  unfold get_fixtures run_generator
  simp only [hg, hres]

/-- A successful `extend_branch` rewrites to the zip of the generated
candidates appended to the branch. -/
theorem extend_branch_ok (generator_dict : GenDict) (test_name : String)
    (old : List String) (v : String) (b : Branch) (p : List PyVal × List PyVal)
    (h : get_fixtures generator_dict test_name v (branch_kwargs old b.1) =
      Except.ok p) :
    extend_branch generator_dict test_name old v b =
      Except.ok ((p.1.zip p.2).map fun q => (b.1 ++ [q.1], b.2 ++ [q.2])) := by
  unfold extend_branch
  rw [h]

/-- Every branch produced by a successful `extend_branch` is the input branch
with exactly one value and one name appended. -/
theorem extend_branch_mem (generator_dict : GenDict) (test_name : String)
    (old : List String) (v : String) (a : Branch) (part : List Branch)
    (h : extend_branch generator_dict test_name old v a = Except.ok part) :
    ∀ b ∈ part, ∃ x y, b = (a.1 ++ [x], a.2 ++ [y]) := by
  unfold extend_branch at h
  split at h
  · exact absurd h (by simp)
  · rename_i x₁ nf hnf
    simp only [Except.ok.injEq] at h
    subst h
    intro b hb
    rcases List.mem_map.mp hb with ⟨q, hq, rfl⟩
    exact ⟨q.1, q.2, rfl⟩

/-- Decomposition of a successful `one_fixture_prod` into the per-branch
extension lists whose concatenation it returns. -/
theorem one_fixture_prod_decomp (generator_dict : GenDict) (test_name : String)
    (st : List Branch) (old : List String) (v : String) (st₁ : List Branch)
    (h : one_fixture_prod generator_dict test_name st old v = Except.ok st₁) :
    ∃ parts,
      mapE (extend_branch generator_dict test_name old v) st = Except.ok parts ∧
      st₁ = parts.flatten := by
  unfold one_fixture_prod at h
  split at h
  · exact absurd h (by simp)
  · rename_i x₁ parts hparts
    simp only [Except.ok.injEq] at h
    exact ⟨parts, hparts, h.symm⟩

/-- Sum of a constant function over a list. -/
theorem sum_map_const {α : Type} (k : Nat) :
    ∀ (l : List α) (f : α → Nat), (∀ x ∈ l, f x = k) →
      (l.map f).sum = l.length * k := by
  intro l
  induction l with
  | nil => intro f _; simp
  | cons a as ih =>
    intro f h
    simp only [List.map_cons, List.sum_cons, List.length_cons]
    rw [h a (by simp), ih f (fun x hx => h x (by simp [hx]))]
    ring

/-- When every branch generates exactly `k` candidate values and `k`
candidate names, one expansion step multiplies the number of branches
by `k`. -/
theorem one_fixture_prod_len (generator_dict : GenDict) (test_name v : String)
    (old : List String) (k : Nat) (st st₁ : List Branch)
    (hyp : ∀ b ∈ st, ∃ p, get_fixtures generator_dict test_name v
      (branch_kwargs old b.1) = Except.ok p ∧ p.1.length = k ∧ p.2.length = k)
    (h : one_fixture_prod generator_dict test_name st old v = Except.ok st₁) :
    st₁.length = st.length * k := by
  rcases one_fixture_prod_decomp _ _ _ _ _ _ h with ⟨parts, hparts, rfl⟩
  have hplen : ∀ part ∈ parts, part.length = k := by
    intro part hpart
    rcases mapE_mem _ st parts hparts part hpart with ⟨b, hb, hfb⟩
    rcases hyp b hb with ⟨p, hgf, h1, h2⟩
    rw [extend_branch_ok _ _ _ _ _ _ hgf] at hfb
    simp only [Except.ok.injEq] at hfb
    subst hfb
    simp [List.length_zip, h1, h2]
  rw [List.length_flatten, sum_map_const k parts List.length hplen,
    mapE_ok_length _ st parts hparts]

/-- When every variable in the resolution order has a registered generator
that always returns a plain list of the fixed size given by `n`, the
expansion multiplies the branch count by the product of the sizes. -/
theorem expand_len_listgen (generator_dict : GenDict) (test_name : String)
    (n : String → Nat) :
    ∀ (vars : List String) (old : List String) (st st₂ : List Branch),
      (∀ v ∈ vars, ∃ g, List.lookup v generator_dict = some g ∧
        ∀ kwargs, ∃ xs, g test_name kwargs = Except.ok (PyVal.list xs) ∧
          xs.length = n v) →
      expand_vars generator_dict test_name old vars st = Except.ok st₂ →
      st₂.length = st.length * (vars.map n).prod := by
  intro vars
  induction vars with
  | nil =>
    intro old st st₂ _ h
    simp only [expand_vars, Except.ok.injEq] at h
    subst h
    simp
  | cons v rest ih =>
    intro old st st₂ hgen h
    simp only [expand_vars] at h
    split at h
    · exact absurd h (by simp)
    · rename_i x₁ st₁ h₁
      rcases hgen v (by simp) with ⟨g, hg, hxs⟩
      have hlen : st₁.length = st.length * n v := by
        apply one_fixture_prod_len generator_dict test_name v old (n v) st st₁ ?_ h₁
        intro b _
        rcases hxs (branch_kwargs old b.1) with ⟨xs, hres, hlenxs⟩
        exact ⟨(xs, xs.map fun x => PyVal.str (pyStr x)),
          get_fixtures_list _ _ _ _ _ _ hg hres, hlenxs, by simp [hlenxs]⟩
      have hrest := ih (old ++ [v]) st₁ st₂
        (fun w hw => hgen w (by simp [hw])) h
      rw [hrest, hlen, List.map_cons, List.prod_cons]
      ring

/-- Expanding over a variable list adds exactly one value per variable to
every branch tuple: the branch length invariant. -/
theorem expand_branch_len (generator_dict : GenDict) (test_name : String) :
    ∀ (vars : List String) (old : List String) (st st₂ : List Branch) (m : Nat),
      (∀ b ∈ st, b.1.length = m) →
      expand_vars generator_dict test_name old vars st = Except.ok st₂ →
      ∀ b ∈ st₂, b.1.length = m + vars.length := by
  intro vars
  induction vars with
  | nil =>
    intro old st st₂ m hm h
    simp only [expand_vars, Except.ok.injEq] at h
    subst h
    simpa using hm
  | cons v rest ih =>
    intro old st st₂ m hm h
    simp only [expand_vars] at h
    split at h
    · exact absurd h (by simp)
    · rename_i x₁ st₁ h₁
      have hst₁ : ∀ b ∈ st₁, b.1.length = m + 1 := by
        rcases one_fixture_prod_decomp _ _ _ _ _ _ h₁ with ⟨parts, hparts, rfl⟩
        intro b hb
        rcases List.mem_flatten.mp hb with ⟨part, hpart, hbp⟩
        rcases mapE_mem _ st parts hparts part hpart with ⟨a, ha, hfa⟩
        rcases extend_branch_mem _ _ _ _ _ _ hfa b hbp with ⟨x, y, rfl⟩
        simp [hm a ha]
      have := ih (old ++ [v]) st₁ st₂ (m + 1) hst₁ h
      intro b hb
      rw [this b hb, List.length_cons]
      omega

/-- For a benign variable, `get_fixtures` always succeeds and all produced
candidate names are Python strings. -/
theorem get_fixtures_benign (generator_dict : GenDict) (test_name v : String)
    (hb : benign generator_dict test_name v)
    (kwargs : List (String × PyVal)) :
    ∃ p, get_fixtures generator_dict test_name v kwargs = Except.ok p ∧
      all_str_names p.2 := by
  rcases hb with ⟨g, hg, hcases⟩
  rcases hcases kwargs with ⟨xs, hxs⟩ | herr
  · refine ⟨(xs, xs.map fun x => PyVal.str (pyStr x)),
      get_fixtures_list _ _ _ _ _ _ hg hxs, ?_⟩
    intro x hx
    rcases List.mem_map.mp hx with ⟨y, _, rfl⟩
    exact ⟨_, rfl⟩
  · refine ⟨_, get_fixtures_raise _ _ _ _ _ hg herr, ?_⟩
    intro x hx
    simp only [List.mem_singleton] at hx
    subst hx
    exact ⟨_, rfl⟩

/-- Name lists whose entries are all strings survive the empty-name filter
and join successfully. -/
theorem str_list_filter_some :
    ∀ (names : List PyVal), all_str_names names →
      ∃ ss, str_list (names.filter ne_empty_str) = some ss := by
  intro names
  induction names with
  | nil => intro _; exact ⟨[], rfl⟩
  | cons a as ih =>
    intro h
    rcases h a (by simp) with ⟨s, rfl⟩
    rcases ih (fun x hx => h x (by simp [hx])) with ⟨ss, hss⟩
    cases hne : ne_empty_str (PyVal.str s) with
    | true =>
      refine ⟨s :: ss, ?_⟩
      simp [List.filter_cons, hne, str_list, hss]
    | false =>
      refine ⟨ss, ?_⟩
      simp [List.filter_cons, hne, hss]

/-- A branch whose name entries are all strings produces a fixture name. -/
theorem make_fixture_name_some (vals names : List PyVal)
    (h : all_str_names names) :
    ∃ s, make_fixture_name vals names = some s := by
  rcases str_list_filter_some names h with ⟨ss, hss⟩
  exact ⟨String.intercalate "-" ss, by simp [make_fixture_name, hss]⟩

/-- Requesting exactly the registered variables (as strings) filters to the
same list of variables. -/
theorem filtered_vars_map_str (generator_dict : GenDict) :
    ∀ (vars : List String),
      (∀ v ∈ vars, ∃ g, List.lookup v generator_dict = some g) →
      filtered_vars generator_dict (vars.map PyVal.str) = vars := by
  intro vars
  induction vars with
  | nil => intro _; rfl
  | cons v rest ih =>
    intro h
    rcases h v (by simp) with ⟨g, hg⟩
    have ih₂ := ih (fun w hw => h w (by simp [hw]))
    simp only [filtered_vars, List.map_cons, List.filterMap_cons] at ih₂ ⊢
    simp only [hg]
    rw [ih₂]

/-- Expansion over benign variables never fails, and keeps every branch's
name entries strings. -/
theorem expand_ok_benign (generator_dict : GenDict) (test_name : String) :
    ∀ (vars : List String),
      (∀ v ∈ vars, benign generator_dict test_name v) →
      ∀ (old : List String) (st : List Branch),
        (∀ b ∈ st, all_str_names b.2) →
        ∃ st₂, expand_vars generator_dict test_name old vars st = Except.ok st₂ ∧
          ∀ b ∈ st₂, all_str_names b.2 := by
  intro vars
  induction vars with
  | nil =>
    intro _ old st hst
    exact ⟨st, rfl, hst⟩
  | cons v rest ih =>
    intro hben old st hst
    have hext : ∀ b ∈ st, ∃ part,
        extend_branch generator_dict test_name old v b = Except.ok part := by
      intro b _
      rcases get_fixtures_benign generator_dict test_name v (hben v (by simp))
        (branch_kwargs old b.1) with ⟨p, hp, _⟩
      exact ⟨_, extend_branch_ok _ _ _ _ _ _ hp⟩
    rcases mapE_ok_of_forall _ st hext with ⟨parts, hparts⟩
    have hone : one_fixture_prod generator_dict test_name st old v =
        Except.ok parts.flatten := by
      unfold one_fixture_prod
      rw [hparts]
    have hstr₁ : ∀ b ∈ parts.flatten, all_str_names b.2 := by
      intro b hb
      rcases List.mem_flatten.mp hb with ⟨part, hpart, hbp⟩
      rcases mapE_mem _ st parts hparts part hpart with ⟨a, ha, hfa⟩
      rcases get_fixtures_benign generator_dict test_name v (hben v (by simp))
        (branch_kwargs old a.1) with ⟨p, hp, hnames⟩
      rw [extend_branch_ok _ _ _ _ _ _ hp] at hfa
      simp only [Except.ok.injEq] at hfa
      subst hfa
      rcases List.mem_map.mp hbp with ⟨q, hq, rfl⟩
      intro x hx
      rcases List.mem_append.mp hx with hx₁ | hx₂
      · exact hst a ha x hx₁
      · have hq₂ : q.2 ∈ p.2 := (List.of_mem_zip hq).2
        rcases hnames q.2 hq₂ with ⟨s, hs⟩
        simp only [List.mem_singleton] at hx₂
        subst hx₂
        exact ⟨s, hs⟩
    rcases ih (fun w hw => hben w (by simp [hw])) (old ++ [v]) parts.flatten hstr₁
      with ⟨st₂, h₂, hstr₂⟩
    refine ⟨st₂, ?_, hstr₂⟩
    simp only [expand_vars, hone]
    exact h₂

/-- Composition: a resolution order, a successful expansion and successful
name joins determine the result of the top-level call. -/
theorem create_eq_of_parts (test_name : String) (fixture_vars : PyVal)
    (generator_dict : GenDict) (fixture_sequence : Option PyVal)
    (fvars : List String) (st₂ : List Branch) (names : List String)
    (hres : resolution_order generator_dict fixture_vars fixture_sequence =
      Except.ok fvars)
    (hexp : expand_vars generator_dict test_name [] fvars [([], [])] =
      Except.ok st₂)
    (hmn : mapE (fun b => except_of_option (make_fixture_name b.1 b.2)) st₂ =
      Except.ok names) :
    create_conditional_fixtures_and_names test_name fixture_vars generator_dict
      fixture_sequence =
      Except.ok (String.intercalate "," fvars,
        st₂.map (fun b => make_fixture_prod b.1 b.2), names) := by
  unfold create_conditional_fixtures_and_names
  simp only [hres, hexp, hmn]

/-- C1: the code accepts a `fixture_vars` list containing a non-string
element without raising a type error, contradicting the validator's own
documentation: `np.all` over a generator expression is always true, so only
the outer `isinstance(obj, list)` test is effective; the non-string entry is
then silently dropped by the key filter and generation proceeds. -/
theorem C1_nonstring_fixture_vars_accepted :
    _check_list_of_str (PyVal.list [PyVal.str "a", PyVal.int 5])
      "fixture_vars" = Except.ok [PyVal.str "a", PyVal.int 5] ∧
    create_conditional_fixtures_and_names "t"
      (PyVal.list [PyVal.str "a", PyVal.int 5]) gdC1 none =
      Except.ok ("a", [PyVal.int 1], ["1"]) :=
  ⟨rfl, rfl⟩

/-- C2 counterexample: with both `a` and `b` registered and requested, a
`fixture_sequence` of just `b` yields resolution order `b` only: the
filtered variable `a` is dropped because it is absent from the sequence,
contradicting the claim that no filtered variable is dropped for that
reason. -/
theorem C2_counterexample_filtered_var_dropped :
    filtered_vars gdC2 [PyVal.str "a", PyVal.str "b"] = ["a", "b"] ∧
    resolution_order gdC2 (PyVal.list [PyVal.str "a", PyVal.str "b"])
      (some (PyVal.list [PyVal.str "b"])) = Except.ok ["b"] ∧
    create_conditional_fixtures_and_names "t"
      (PyVal.list [PyVal.str "a", PyVal.str "b"]) gdC2
      (some (PyVal.list [PyVal.str "b"])) =
      Except.ok ("b", [PyVal.int 2], ["2"]) ∧
    "a" ∉ (["b"] : List String) :=
  ⟨rfl, rfl, rfl, by decide⟩

/-- The re-ordering loop equals filtering the string entries of the sequence
by membership in the filtered variables. -/
theorem ordered_vars_filter (fv : List String) :
    ∀ (seqL : List PyVal),
      ordered_vars fv seqL =
        (seqL.filterMap str_of).filter (fun s => decide (s ∈ fv)) := by
  intro seqL
  induction seqL with
  | nil => rfl
  | cons v rest ih =>
    cases v with
    | int n => simpa [ordered_vars, str_of, List.filterMap_cons] using ih
    | str s =>
      by_cases hs : s ∈ fv <;>
        simp [ordered_vars, str_of, List.filterMap_cons, List.filter_cons, hs,
          ← ih]
    | tuple xs => simpa [ordered_vars, str_of, List.filterMap_cons] using ih
    | list xs => simpa [ordered_vars, str_of, List.filterMap_cons] using ih
    | genError m => simpa [ordered_vars, str_of, List.filterMap_cons] using ih

/-- C2 (amended): when `fixture_sequence` is provided, the resolution order
consists of exactly those sequence entries that are filtered requested
variables, in the relative order of the sequence; sequence entries outside
the filtered set and filtered variables absent from the sequence are both
dropped. -/
theorem C2_amended_resolution_order (generator_dict : GenDict)
    (fv seqL : List PyVal) :
    resolution_order generator_dict (PyVal.list fv) (some (PyVal.list seqL)) =
      Except.ok ((seqL.filterMap str_of).filter
        (fun s => decide (s ∈ filtered_vars generator_dict fv))) := by
  have h : resolution_order generator_dict (PyVal.list fv)
      (some (PyVal.list seqL)) =
      Except.ok (ordered_vars (filtered_vars generator_dict fv) seqL) := rfl
  rw [h, ordered_vars_filter]

/-- C3: when every requested variable has a registered generator returning
plain candidate lists of a fixed size (the sizes given by `n`), the number
of produced fixture values is the product of the sizes over the resolution
order. -/
theorem C3_product_count (test_name : String) (generator_dict : GenDict)
    (vars : List String) (n : String → Nat) (ps : String) (vals : List PyVal)
    (names : List String)
    (hgen : ∀ v ∈ vars, ∃ g, List.lookup v generator_dict = some g ∧
      ∀ kwargs, ∃ xs, g test_name kwargs = Except.ok (PyVal.list xs) ∧
        xs.length = n v)
    (hok : create_conditional_fixtures_and_names test_name
      (PyVal.list (vars.map PyVal.str)) generator_dict none =
      Except.ok (ps, vals, names)) :
    vals.length = (vars.map n).prod := by
  rcases create_ok_decomp _ _ _ _ _ _ _ hok with
    ⟨fvars, prods, hres, hexp, hps, hvals, hnames⟩
  have hfvars : fvars = vars := by
    have hr : resolution_order generator_dict
        (PyVal.list (vars.map PyVal.str)) none =
        Except.ok (filtered_vars generator_dict (vars.map PyVal.str)) := rfl
    rw [hr, Except.ok.injEq] at hres
    rw [← hres, filtered_vars_map_str generator_dict vars
      (fun v hv => ⟨(hgen v hv).choose, (hgen v hv).choose_spec.1⟩)]
  subst hfvars
  have hlen := expand_len_listgen generator_dict test_name n fvars [] [([], [])]
    prods hgen hexp
  rw [hvals, List.length_map, hlen]
  simp

/-- Witness for C3: two variables with 1 and 2 candidates produce 1 * 2
fixture values. -/
theorem C3_product_count_witness :
    ([PyVal.tuple [PyVal.int 1, PyVal.int 2],
      PyVal.tuple [PyVal.int 1, PyVal.int 3]] : List PyVal).length =
      ((["a", "b"] : List String).map nC3).prod :=
  C3_product_count "t" gdC3 ["a", "b"] nC3 "a,b"
    [PyVal.tuple [PyVal.int 1, PyVal.int 2],
     PyVal.tuple [PyVal.int 1, PyVal.int 3]]
    ["1-2", "1-3"]
    (by
      intro v hv
      rcases List.mem_cons.mp hv with rfl | hv₂
      · exact ⟨_, rfl, fun kwargs => ⟨_, rfl, rfl⟩⟩
      · rcases List.mem_cons.mp hv₂ with rfl | hv₃
        · exact ⟨_, rfl, fun kwargs => ⟨_, rfl, rfl⟩⟩
        · exact absurd hv₃ (by simp))
    rfl

/-- C7: a requested variable without a registered generator is dropped
silently: the call with it present equals, component by component, the call
with it removed. -/
theorem C7_unregistered_dropped (test_name : String) (generator_dict : GenDict)
    (m : String) (hm : List.lookup m generator_dict = none)
    (xs ys : List PyVal) (fixture_sequence : Option PyVal) :
    create_conditional_fixtures_and_names test_name
      (PyVal.list (xs ++ PyVal.str m :: ys)) generator_dict fixture_sequence =
    create_conditional_fixtures_and_names test_name
      (PyVal.list (xs ++ ys)) generator_dict fixture_sequence := by
  have hfil : filtered_vars generator_dict (xs ++ PyVal.str m :: ys) =
      filtered_vars generator_dict (xs ++ ys) := by
    simp only [filtered_vars, List.filterMap_append, List.filterMap_cons, hm]
  have hres : resolution_order generator_dict
      (PyVal.list (xs ++ PyVal.str m :: ys)) fixture_sequence =
      resolution_order generator_dict (PyVal.list (xs ++ ys))
        fixture_sequence := by
    cases fixture_sequence with
    | none =>
      show Except.ok (filtered_vars generator_dict (xs ++ PyVal.str m :: ys)) =
        Except.ok (filtered_vars generator_dict (xs ++ ys))
      rw [hfil]
    | some seq =>
      unfold resolution_order
      simp [_check_list_of_str, np_all_genexpr, hfil]
  unfold create_conditional_fixtures_and_names
  rw [hres]

/-- Witness for C7: requesting `a` and the unregistered `missing` behaves
exactly like requesting `a` alone. -/
theorem C7_unregistered_dropped_witness :
    create_conditional_fixtures_and_names "t"
      (PyVal.list ([PyVal.str "a"] ++ PyVal.str "missing" :: [])) gdC7 none =
    create_conditional_fixtures_and_names "t"
      (PyVal.list ([PyVal.str "a"] ++ [])) gdC7 none :=
  C7_unregistered_dropped "t" gdC7 "missing" rfl [PyVal.str "a"] [] none

/-- C9: when the resolution order is empty (no requested variable survives
filtering and re-ordering, or none was requested), the call succeeds and
returns the empty parameter string, one value (the empty tuple) and one
name (the empty string). -/
theorem C9_empty_resolution (test_name : String) (fixture_vars : PyVal)
    (generator_dict : GenDict) (fixture_sequence : Option PyVal)
    (h : resolution_order generator_dict fixture_vars fixture_sequence =
      Except.ok []) :
    create_conditional_fixtures_and_names test_name fixture_vars generator_dict
      fixture_sequence = Except.ok ("", [PyVal.tuple []], [""]) := by
  unfold create_conditional_fixtures_and_names
  simp only [h]
  rfl

/-- Witness for C9: the empty request on the empty dictionary. -/
theorem C9_empty_resolution_witness :
    create_conditional_fixtures_and_names "t" (PyVal.list []) gdC9 none =
      Except.ok ("", [PyVal.tuple []], [""]) :=
  C9_empty_resolution "t" (PyVal.list []) gdC9 none rfl

/-- Unwrapping of a non-singleton tuple is the identity. -/
theorem _remove_single_ne_one (x : List PyVal) (h : x.length ≠ 1) :
    _remove_single x = PyVal.tuple x := by
  cases x with
  | nil => rfl
  | cons a rest =>
    cases rest with
    | nil => exact absurd rfl h
    | cons b rest₂ => rfl

/-- C4: a raising generator contributes exactly the one-element error
sentinel candidate set, displayed as `Error:` followed by the variable name;
the exception does not escape `get_fixtures`, and when all requested
variables are benign (their generators either return candidate lists or
raise) the whole call still succeeds, so generation continues over later
variables and sibling branches. -/
theorem C4_error_sentinel (test_name : String) (generator_dict : GenDict)
    (vars : List String) (v : String) (g : Generator)
    (kwargs : List (String × PyVal))
    (hg : List.lookup v generator_dict = some g)
    (hraise : g test_name kwargs = Except.error ())
    (hben : ∀ w ∈ vars, benign generator_dict test_name w) :
    get_fixtures generator_dict test_name v kwargs =
      Except.ok ([PyVal.genError v], [PyVal.str ("Error:" ++ v)]) ∧
    is_ok (create_conditional_fixtures_and_names test_name
      (PyVal.list (vars.map PyVal.str)) generator_dict none) = true := by
  refine ⟨get_fixtures_raise _ _ _ _ _ hg hraise, ?_⟩
  have hfil : filtered_vars generator_dict (vars.map PyVal.str) = vars :=
    filtered_vars_map_str generator_dict vars
      (fun w hw => ⟨(hben w hw).choose, (hben w hw).choose_spec.1⟩)
  rcases expand_ok_benign generator_dict test_name vars hben [] [([], [])]
    (by
      intro b hb
      simp only [List.mem_singleton] at hb
      subst hb
      intro x hx
      exact absurd hx (by simp))
    with ⟨st₂, hexp, hstr⟩
  rcases mapE_ok_of_forall
    (fun b => except_of_option (make_fixture_name b.1 b.2)) st₂
    (fun b hb => by
      rcases make_fixture_name_some b.1 b.2 (hstr b hb) with ⟨s, hs⟩
      exact ⟨s, by simp [hs, except_of_option]⟩)
    with ⟨names, hmn⟩
  have hres : resolution_order generator_dict (PyVal.list (vars.map PyVal.str))
      none = Except.ok vars := by
    have hr : resolution_order generator_dict
        (PyVal.list (vars.map PyVal.str)) none =
        Except.ok (filtered_vars generator_dict (vars.map PyVal.str)) := rfl
    rw [hr, hfil]
  rw [create_eq_of_parts test_name (PyVal.list (vars.map PyVal.str))
    generator_dict none vars st₂ names hres hexp hmn]
  rfl

/-- Witness for C4: variable `x` raises, variable `y` generates; the sentinel
is produced for `x` and the call as a whole still succeeds. -/
theorem C4_error_sentinel_witness :
    get_fixtures gdC4 "t" "x" [] =
      Except.ok ([PyVal.genError "x"], [PyVal.str ("Error:" ++ "x")]) ∧
    is_ok (create_conditional_fixtures_and_names "t"
      (PyVal.list (["x", "y"].map PyVal.str)) gdC4 none) = true :=
  C4_error_sentinel "t" gdC4 ["x", "y"] "x" (fun _ _ => Except.error ()) []
    rfl rfl
    (by
      intro w hw
      rcases List.mem_cons.mp hw with rfl | hw₂
      · exact ⟨_, rfl, fun kwargs => Or.inr rfl⟩
      · rcases List.mem_cons.mp hw₂ with rfl | hw₃
        · exact ⟨_, rfl, fun kwargs => Or.inl ⟨_, rfl⟩⟩
        · exact absurd hw₃ (by simp))

/-- C5: every branch of a successful call has as many values as resolved
variables; with exactly one resolved variable the produced values are the
bare branch elements (no tuple wrapping), and otherwise they are the branch
tuples, hence tuples of length N for N greater or equal 2. -/
theorem C5_value_shape (test_name : String) (fixture_vars : PyVal)
    (generator_dict : GenDict) (fixture_sequence : Option PyVal)
    (vars : List String) (prods : List Branch) (ps : String)
    (vals : List PyVal) (names : List String)
    (hvars : resolution_order generator_dict fixture_vars fixture_sequence =
      Except.ok vars)
    (hexp : expand_vars generator_dict test_name [] vars [([], [])] =
      Except.ok prods)
    (hok : create_conditional_fixtures_and_names test_name fixture_vars
      generator_dict fixture_sequence = Except.ok (ps, vals, names)) :
    prods.map (fun b => b.1.length) =
      List.replicate prods.length vars.length ∧
    vals = prods.map (fun b => make_fixture_prod b.1 b.2) ∧
    vals = (if vars.length = 1 then prods.map (fun b => b.1.headI)
      else prods.map (fun b => PyVal.tuple b.1)) := by
  rcases create_ok_decomp _ _ _ _ _ _ _ hok with
    ⟨fvars, prods₂, hres₂, hexp₂, hps, hvals, hnames⟩
  rw [hvars, Except.ok.injEq] at hres₂
  subst hres₂
  rw [hexp, Except.ok.injEq] at hexp₂
  subst hexp₂
  have hblen : ∀ b ∈ prods, b.1.length = vars.length := by
    have hinv := expand_branch_len generator_dict test_name vars [] [([], [])]
      prods 0
      (by
        intro b hb
        simp only [List.mem_singleton] at hb
        subst hb
        rfl) hexp
    intro b hb
    simpa using hinv b hb
  refine ⟨?_, hvals, ?_⟩
  · apply List.eq_replicate_iff.mpr
    refine ⟨by simp, ?_⟩
    intro x hx
    rcases List.mem_map.mp hx with ⟨b, hb, rfl⟩
    exact hblen b hb
  · rw [hvals]
    by_cases h1 : vars.length = 1
    · rw [if_pos h1]
      apply List.map_congr_left
      intro b hb
      rcases List.length_eq_one.mp (h1 ▸ hblen b hb) with ⟨x, hx⟩
      rw [show make_fixture_prod b.1 b.2 = _remove_single b.1 from rfl, hx]
      rfl
    · rw [if_neg h1]
      apply List.map_congr_left
      intro b hb
      have hb1 : b.1.length ≠ 1 := by
        rw [hblen b hb]
        exact h1
      exact _remove_single_ne_one b.1 hb1

/-- Witness for C5 at two resolved variables: both produced values are
2-tuples and equal the branch tuples. -/
theorem C5_value_shape_witness :
    ([([PyVal.int 1, PyVal.int 3], [PyVal.str "1", PyVal.str "3"]),
      ([PyVal.int 2, PyVal.int 3], [PyVal.str "2", PyVal.str "3"])] :
        List Branch).map (fun b => b.1.length) = List.replicate 2 2 ∧
    [PyVal.tuple [PyVal.int 1, PyVal.int 3],
     PyVal.tuple [PyVal.int 2, PyVal.int 3]] =
      ([([PyVal.int 1, PyVal.int 3], [PyVal.str "1", PyVal.str "3"]),
        ([PyVal.int 2, PyVal.int 3], [PyVal.str "2", PyVal.str "3"])] :
          List Branch).map (fun b => make_fixture_prod b.1 b.2) ∧
    [PyVal.tuple [PyVal.int 1, PyVal.int 3],
     PyVal.tuple [PyVal.int 2, PyVal.int 3]] =
      (if (["a", "b"] : List String).length = 1
       then ([([PyVal.int 1, PyVal.int 3], [PyVal.str "1", PyVal.str "3"]),
         ([PyVal.int 2, PyVal.int 3], [PyVal.str "2", PyVal.str "3"])] :
           List Branch).map (fun b => b.1.headI)
       else ([([PyVal.int 1, PyVal.int 3], [PyVal.str "1", PyVal.str "3"]),
         ([PyVal.int 2, PyVal.int 3], [PyVal.str "2", PyVal.str "3"])] :
           List Branch).map (fun b => PyVal.tuple b.1)) :=
  C5_value_shape "t" (PyVal.list [PyVal.str "a", PyVal.str "b"]) gdC5 none
    ["a", "b"]
    [([PyVal.int 1, PyVal.int 3], [PyVal.str "1", PyVal.str "3"]),
     ([PyVal.int 2, PyVal.int 3], [PyVal.str "2", PyVal.str "3"])]
    "a,b"
    [PyVal.tuple [PyVal.int 1, PyVal.int 3],
     PyVal.tuple [PyVal.int 2, PyVal.int 3]]
    ["1-3", "2-3"] rfl rfl rfl

/-- C6: the produced value and name sequences of a successful call have
equal length and are index-aligned: the values are the per-branch unwrapped
tuples and the names are, branch by branch in the same order, the dash-joins
of the branch's non-empty display names. -/
theorem C6_alignment (test_name : String) (fixture_vars : PyVal)
    (generator_dict : GenDict) (fixture_sequence : Option PyVal)
    (vars : List String) (prods : List Branch) (ps : String)
    (vals : List PyVal) (names : List String)
    (hvars : resolution_order generator_dict fixture_vars fixture_sequence =
      Except.ok vars)
    (hexp : expand_vars generator_dict test_name [] vars [([], [])] =
      Except.ok prods)
    (hok : create_conditional_fixtures_and_names test_name fixture_vars
      generator_dict fixture_sequence = Except.ok (ps, vals, names)) :
    vals.length = names.length ∧
    vals = prods.map (fun b => make_fixture_prod b.1 b.2) ∧
    mapO (fun b => make_fixture_name b.1 b.2) prods = some names := by
  rcases create_ok_decomp _ _ _ _ _ _ _ hok with
    ⟨fvars, prods₂, hres₂, hexp₂, hps, hvals, hnames⟩
  rw [hvars, Except.ok.injEq] at hres₂
  subst hres₂
  rw [hexp, Except.ok.injEq] at hexp₂
  subst hexp₂
  refine ⟨?_, hvals, mapE_option _ prods names hnames⟩
  rw [hvals, List.length_map, mapE_ok_length _ prods names hnames]

/-- Witness for C6 at one variable with two candidates. -/
theorem C6_alignment_witness :
    ([PyVal.int 1, PyVal.int 2] : List PyVal).length =
      (["1", "2"] : List String).length ∧
    [PyVal.int 1, PyVal.int 2] =
      ([([PyVal.int 1], [PyVal.str "1"]), ([PyVal.int 2], [PyVal.str "2"])] :
        List Branch).map (fun b => make_fixture_prod b.1 b.2) ∧
    mapO (fun b => make_fixture_name b.1 b.2)
      ([([PyVal.int 1], [PyVal.str "1"]), ([PyVal.int 2], [PyVal.str "2"])] :
        List Branch) = some ["1", "2"] :=
  C6_alignment "t" (PyVal.list [PyVal.str "a"]) gdC6 none ["a"]
    [([PyVal.int 1], [PyVal.str "1"]), ([PyVal.int 2], [PyVal.str "2"])]
    "a" [PyVal.int 1, PyVal.int 2] ["1", "2"] rfl rfl rfl

/-- C10: a generator return that is a tuple of length exactly 2 is always
interpreted as the (candidate values, display names) pair, whatever its
components hold; a list return is interpreted as candidates with names
synthesized by `str`; a non-list non-2-tuple iterable of (value, name)
pairs is interpreted as candidates paired with the supplied names. -/
theorem C10_result_dispatch (generator_dict : GenDict) (test_name : String)
    (v₁ v₂ v₃ : String) (g₁ g₂ g₃ : Generator)
    (kwargs : List (String × PyVal)) (a b : PyVal) (va nb xs es : List PyVal)
    (ps : List (PyVal × PyVal))
    (hg₁ : List.lookup v₁ generator_dict = some g₁)
    (hr₁ : g₁ test_name kwargs = Except.ok (PyVal.tuple [a, b]))
    (hia : pyIter a = some va) (hib : pyIter b = some nb)
    (hg₂ : List.lookup v₂ generator_dict = some g₂)
    (hr₂ : g₂ test_name kwargs = Except.ok (PyVal.list xs))
    (hg₃ : List.lookup v₃ generator_dict = some g₃)
    (hr₃ : g₃ test_name kwargs = Except.ok (PyVal.tuple es))
    (hlen : es.length ≠ 2)
    (hps : mapE unpack_pair es = Except.ok ps) :
    get_fixtures generator_dict test_name v₁ kwargs = Except.ok (va, nb) ∧
    get_fixtures generator_dict test_name v₂ kwargs =
      Except.ok (xs, xs.map fun x => PyVal.str (pyStr x)) ∧
    get_fixtures generator_dict test_name v₃ kwargs =
      Except.ok (ps.map Prod.fst, ps.map Prod.snd) := by
  refine ⟨?_, get_fixtures_list _ _ _ _ _ _ hg₂ hr₂, ?_⟩
  · unfold get_fixtures run_generator
    simp only [hg₁, hr₁, classify_res, hia, hib]
  · unfold get_fixtures run_generator
    simp only [hg₃, hr₃]
    cases es with
    | nil => simp [classify_res, pyIter, hps]
    | cons e₁ rest =>
      cases rest with
      | nil => simp [classify_res, pyIter, hps]
      | cons e₂ rest₂ =>
        cases rest₂ with
        | nil => exact absurd rfl hlen
        | cons e₃ rest₃ => simp [classify_res, pyIter, hps]

/-- Witness for C10: the three generators of `gdC10` exercise the pair form,
the list form and the iterable-of-pairs form. -/
theorem C10_result_dispatch_witness :
    get_fixtures gdC10 "t" "p" [] =
      Except.ok ([PyVal.int 7], [PyVal.str "seven"]) ∧
    get_fixtures gdC10 "t" "l" [] =
      Except.ok ([PyVal.int 1, PyVal.int 2],
        [PyVal.str "1", PyVal.str "2"]) ∧
    get_fixtures gdC10 "t" "s" [] =
      Except.ok ([PyVal.int 1, PyVal.int 2, PyVal.int 3],
        [PyVal.str "one", PyVal.str "two", PyVal.str "three"]) :=
  C10_result_dispatch gdC10 "t" "p" "l" "s"
    (fun _ _ => Except.ok (PyVal.tuple
      [PyVal.list [PyVal.int 7], PyVal.list [PyVal.str "seven"]]))
    (fun _ _ => Except.ok (PyVal.list [PyVal.int 1, PyVal.int 2]))
    (fun _ _ => Except.ok (PyVal.tuple
      [PyVal.tuple [PyVal.int 1, PyVal.str "one"],
       PyVal.tuple [PyVal.int 2, PyVal.str "two"],
       PyVal.tuple [PyVal.int 3, PyVal.str "three"]]))
    [] (PyVal.list [PyVal.int 7]) (PyVal.list [PyVal.str "seven"])
    [PyVal.int 7] [PyVal.str "seven"] [PyVal.int 1, PyVal.int 2]
    [PyVal.tuple [PyVal.int 1, PyVal.str "one"],
     PyVal.tuple [PyVal.int 2, PyVal.str "two"],
     PyVal.tuple [PyVal.int 3, PyVal.str "three"]]
    [(PyVal.int 1, PyVal.str "one"), (PyVal.int 2, PyVal.str "two"),
     (PyVal.int 3, PyVal.str "three")]
    rfl rfl rfl rfl rfl rfl rfl rfl (by decide) rfl
